import Mathlib

/-!
Verification development for the agentpathing repository.

The repository ships a TypeScript front end (`front_end/src/api.ts`,
`front_end/src/components/PromptInput.tsx`, `App.tsx`, demo `data.ts`) for a
multi-agent "reasoning robustness" pipeline.  The backend pipeline itself
(agent runner, family clusterer, robustness scorer, orchestrator) is not part
of the sources; where a property concerns that missing code it is modelled
from the specification and marked as such in its doc comment.

JavaScript semantics notes used throughout the shallow embedding:
* `undefined`/missing values are modelled with `Option`;
* JS string truthiness (`""` is falsy) is modelled by `jsTruthy`;
* JS numbers are modelled with `Rat` (exact arithmetic idealisation);
* `String.prototype.trim` is modelled by `jsTrim` over the character list.
-/

/-- Characters treated as whitespace by the embedding of `trim` (the common
ASCII whitespace subset of the JS `\s` class). -/
def wsChar (c : Char) : Bool := c.isWhitespace

/-- Drop leading and trailing whitespace characters from a character list. -/
def trimChars (l : List Char) : List Char :=
  ((l.dropWhile wsChar).reverse.dropWhile wsChar).reverse

/-- Embedding of JS `String.prototype.trim()`. -/
def jsTrim (s : String) : String := ⟨trimChars s.data⟩

/-- Embedding of JS `String.prototype.toUpperCase()` (ASCII case mapping). -/
def jsToUpper (s : String) : String := ⟨s.data.map Char.toUpper⟩

/-- Embedding of JS `String.prototype.toLowerCase()` (ASCII case mapping). -/
def jsToLower (s : String) : String := ⟨s.data.map Char.toLower⟩

/-- JS truthiness of an optional string: `undefined` and `""` are falsy. -/
def jsTruthy : Option String → Bool
  | none => false
  | some s => s ≠ ""

/-- JS `a || b` on optional strings (first operand kept when truthy). -/
def jsOrOpt (a b : Option String) : Option String := if jsTruthy a then a else b

/-- JS `a || b` on strings (empty string falsy). -/
def jsStrOr (a b : String) : String := if a = "" then b else a

/-- JS truthiness of an optional boolean (`undefined` is falsy). -/
def jsTruthyBool : Option Bool → Bool
  | none => false
  | some b => b

/-! ## Front-end data model (`front_end/src/types.ts`) -/

/-- `TrustLevel` from `types.ts`. -/
inductive TrustLevel
  | Fragile
  | Uncertain
  | Robust
deriving DecidableEq, Repr

/-- `ReasoningStep` from `types.ts`; the optional `isShared` flag is modelled
as a `Bool` (absent ≡ `false`, matching its truthiness uses). -/
structure ReasoningStep where
  id : Nat
  text : String
  isShared : Bool
deriving DecidableEq, Repr

/-- `AgentData` from `types.ts`. -/
structure AgentData where
  id : String
  name : String
  finalAnswer : String
  reasoning : List ReasoningStep
  assumptions : List String
  folTranslation : Option String
deriving DecidableEq, Repr

/-- `GateDecisionInfo` from `types.ts`. -/
structure GateDecisionInfo where
  decision : String
  reason : String
  action : String
  suggestion : Option String
  color : String
  icon : String
deriving DecidableEq, Repr

/-- `RobustnessOverview` from `types.ts`. -/
structure RobustnessOverview where
  totalAgents : Nat
  distinctFamilies : Nat
  confidence : String
  explanation : Option String
  recommendation : Option String
deriving DecidableEq, Repr

/-- `TaskFamily` from `types.ts`. -/
structure TaskFamily where
  familyId : String
  repRunId : String
  runIds : List String
deriving DecidableEq, Repr

/-- `TaskRun` from `types.ts`. -/
structure TaskRun where
  id : Option String
  agentRole : Option String
  finalAnswer : Option String
  planSteps : Option (List String)
  assumptions : Option (List String)
  isValid : Option Bool
deriving DecidableEq, Repr

/-- `AnalysisResult` from `types.ts` (fields used by the embedded code). -/
structure AnalysisResult where
  taskId : Option String
  summary : Option String
  trustLevel : TrustLevel
  trustDescription : String
  agents : List AgentData
  gateDecision : Option GateDecisionInfo
  robustness : Option RobustnessOverview
  families : Option (List TaskFamily)
  runs : Option (List TaskRun)
  analysisError : Option String
deriving DecidableEq, Repr

/-! ## Pure helpers of `front_end/src/api.ts` -/

/-- `AGENT_NAMES` constant from `api.ts`. -/
def AGENT_NAMES : List String :=
  ["Agent Alpha", "Agent Beta", "Agent Gamma", "Agent Delta", "Agent Epsilon"]

/-- `AGENT_IDS` constant from `api.ts`. -/
def AGENT_IDS : List String := ["A", "B", "C", "D", "E"]

/-- The leading-marker strip of `parsePlan`: the regex
`^(?:\d+[\).\s]+|[-*•]\s+)` removes either digits followed by a nonempty run
of `)`, `.` or whitespace, or a bullet character followed by whitespace. -/
def stripMarker (l : List Char) : List Char :=
  let ds := l.takeWhile Char.isDigit
  if ds ≠ [] then
    let rest := l.dropWhile Char.isDigit
    let punct := rest.takeWhile (fun c => c = ')' || c = '.' || wsChar c)
    if punct ≠ [] then rest.dropWhile (fun c => c = ')' || c = '.' || wsChar c) else l
  else
    match l with
    | c :: rest =>
        if (c = '-' || c = '*' || c = '•') && (rest.takeWhile wsChar ≠ []) then
          rest.dropWhile wsChar
        else l
    | [] => l

/-- Split a character list at every newline (the split segments, in order;
adjacent newlines produce empty segments). -/
def splitCharsAux : List Char → List Char → List (List Char)
  | [], acc => [acc.reverse]
  | c :: rest, acc =>
      if c = '\n' then acc.reverse :: splitCharsAux rest []
      else splitCharsAux rest (c :: acc)

/-- Splitting on `/\n+/`: modelled as splitting at each newline; the empty
segments produced between adjacent newlines are removed downstream by the
`filter(Boolean)` step (and never satisfy the length predicate of
`extractFinalAnswer`), so the observable values are unchanged. -/
def splitLines (s : String) : List String := (splitCharsAux s.data []).map String.mk

/-- `parsePlan` from `api.ts` lines 280-288. -/
def parsePlan (plan : Option String) : List String :=
  match plan with
  | none => []
  | some p =>
      if p = "" then []
      else
        ((((splitLines p).map jsTrim).map
            (fun line => jsTrim ⟨stripMarker line.data⟩)).filter
          (fun line => line ≠ "")).take 10

/-- `PipelineAnalyzedReasoning` from `api.ts`. -/
structure PipelineAnalyzedReasoning where
  agent_id : String
  fol_translation : Option String
  assumptions : Option (List String)
  steps : Option (List String)
deriving DecidableEq, Repr

/-- `PipelineAgentResponse` from `api.ts`. -/
structure PipelineAgentResponse where
  agent_id : String
  prompt_variant : String
  plan : String
  explanation : String
  elapsed_ms : Nat
deriving DecidableEq, Repr

/-- `PipelineRobustness` from `api.ts`. -/
structure PipelineRobustness where
  score : Option String
  confidence : Option String
  explanation : Option String
  recommendation : Option String
  total_agents : Option Nat
  distinct_families : Option Nat
deriving DecidableEq, Repr

/-- `PipelineGateDecision` from `api.ts`. -/
structure PipelineGateDecision where
  decision : String
  reason : String
  action : String
  suggestion : Option String
  color : String
  icon : String
deriving DecidableEq, Repr

/-- `PipelineResponse` from `api.ts`. -/
structure PipelineResponse where
  task_id : Option String
  summary : Option String
  agent_responses : Option (List PipelineAgentResponse)
  analyzed_reasoning : Option (List PipelineAnalyzedReasoning)
  robustness : Option PipelineRobustness
  gate_decision : Option PipelineGateDecision
deriving DecidableEq, Repr

/-- The `reasoning_summary` object read out of the `raw_json` of a run. -/
structure RawReasoningSummary where
  final_answer : Option String
  plan_steps : Option (List String)
  assumptions : Option (List String)
deriving DecidableEq, Repr

/-- A run document of `TaskResponsePayload` from `api.ts` (`raw_json` is
modelled by its only consumed field, `reasoning_summary`). -/
structure RunDoc where
  rid : Option String
  agent_role : Option String
  plan_steps : Option (List String)
  assumptions : Option (List String)
  final_answer : Option String
  is_valid : Option Bool
  raw_summary : Option RawReasoningSummary
deriving DecidableEq, Repr

/-- A family entry of the task document in `TaskResponsePayload`. -/
structure TaskFamilyDoc where
  family_id : String
  rep_run_id : String
  run_ids : List String
deriving DecidableEq, Repr

/-- The task document of `TaskResponsePayload` from `api.ts`. -/
structure TaskDoc where
  robustness_status : Option String
  num_families : Option Nat
  analysis_error : Option String
  families : Option (List TaskFamilyDoc)
deriving DecidableEq, Repr

/-- `TaskResponsePayload` from `api.ts`. -/
structure TaskResponsePayload where
  task : TaskDoc
  runs : List RunDoc
deriving DecidableEq, Repr

/-- A character counted by the JS `\w` class (`[A-Za-z0-9_]`, ASCII). -/
def isWordChar (c : Char) : Bool := c.isAlphanum || c = '_'

/-- The `replace(/\b\w/g, c => c.toUpperCase())` step of `humanFriendlyName`:
uppercase every word character not preceded by a word character.  The flag
records whether the previous character was a word character. -/
def capitalizeWordStarts : List Char → Bool → List Char
  | [], _ => []
  | c :: rest, prevWord =>
      (if isWordChar c && !prevWord then c.toUpper else c) ::
        capitalizeWordStarts rest (isWordChar c)

/-- `humanFriendlyName` from `api.ts` lines 263-267. -/
def humanFriendlyName (variant : String) (index : Nat) : String :=
  if variant = "" then jsStrOr (AGENT_NAMES.getD index "") ("Agent " ++ toString (index + 1))
  else
    String.mk
        (capitalizeWordStarts (variant.data.map (fun c => if c = '_' then ' ' else c)) false)
      ++ " Agent"

/-- `extractFinalAnswer` from `api.ts` lines 290-294 (split on `/[\n]+/`; the
extra empty segments of the plain newline split never satisfy the length
predicate, so `find?` is unaffected). -/
def extractFinalAnswer (explanation : Option String) : String :=
  match explanation with
  | none => "No explanation provided."
  | some e =>
      if e = "" then "No explanation provided."
      else
        match (splitLines e).find? (fun line => (jsTrim line).length > 8) with
        | some sentence => jsTrim sentence
        | none => String.mk (e.data.take 180)

/-- `buildReasoningSteps` from `api.ts` lines 269-278; a fresh step carries no
`isShared` flag, modelled as `false`. -/
def buildReasoningSteps (plan : Option String)
    (analysis : Option PipelineAnalyzedReasoning) : List ReasoningStep :=
  let rawSteps :=
    match analysis.bind (fun a => a.steps) with
    | some l => if l ≠ [] then l else parsePlan plan
    | none => parsePlan plan
  rawSteps.mapIdx (fun idx text => { id := idx + 1, text := jsTrim text, isShared := false })

/-- The normalisation used by `detectSharedReasoning`:
`step.text.toLowerCase().trim()`. -/
def normalizeStep (t : String) : String := jsTrim (jsToLower t)

/-- The `reasoningCounts` table of `detectSharedReasoning`: how many reasoning
steps across all agents normalise to the same text as `t`. -/
def stepTextCount (agents : List AgentData) (t : String) : Nat :=
  (((agents.map (fun a => a.reasoning.map (fun st => normalizeStep st.text))).flatten).filter
    (fun x => x = normalizeStep t)).length

/-- `detectSharedReasoning` from `api.ts` lines 299-318, as a pure function
returning the updated agents instead of mutating them in place. -/
def detectSharedReasoning (agents : List AgentData) : List AgentData :=
  if agents.length < 2 then agents
  else
    agents.map (fun a =>
      { a with
        reasoning := a.reasoning.map (fun st =>
          if stepTextCount agents st.text > 1 then { st with isShared := true } else st) })

/-- `mapScoreToTrust` from `api.ts` lines 335-346. -/
def mapScoreToTrust (score : String) : TrustLevel :=
  match jsToUpper score with
  | "FRAGILE" | "BLOCK" => .Fragile
  | "ROBUST" | "ALLOW" => .Robust
  | _ => .Uncertain

/-- `calculateTrustFromAgents` from `api.ts` lines 348-383, returning the pair
(trustLevel, trustDescription); the shared-step fraction is exact rational
arithmetic in place of JS floating point. -/
def calculateTrustFromAgents (agents : List AgentData) : TrustLevel × String :=
  match agents with
  | [] => (.Uncertain, "No agent responses available.")
  | a0 :: _ =>
      let totalSteps := (agents.map (fun a => a.reasoning.length)).sum
      let sharedSteps :=
        (agents.map (fun a => (a.reasoning.filter (fun st => st.isShared)).length)).sum
      let sharedFraction : ℚ :=
        if totalSteps > 0 then (sharedSteps : ℚ) / (totalSteps : ℚ) else 0
      let sameAnswers :=
        agents.all (fun a => jsToLower (jsTrim a.finalAnswer) = jsToLower (jsTrim a0.finalAnswer))
      if sharedFraction > 7/10 ∧ sameAnswers then
        (.Fragile, "High agreement using identical reasoning paths. Watch for collapse.")
      else if sharedFraction < 3/10 ∧ ¬sameAnswers then
        (.Robust, "Diverse reasoning paths detected across agents.")
      else
        (.Uncertain, "Mixed agreement. Inspect reasoning differences manually.")

/-- `determineTrustLevel` from `api.ts` lines 320-333.  `score` is the JS
`gateDecision || robustnessScore` with string truthiness: an empty or missing
score falls through to `calculateTrustFromAgents`. -/
def determineTrustLevel (gateDecision robustnessScore : Option String)
    (agents : List AgentData) : TrustLevel × String :=
  match jsOrOpt gateDecision robustnessScore with
  | some s => if s = "" then calculateTrustFromAgents agents else (mapScoreToTrust s, "")
  | none => calculateTrustFromAgents agents

/-- JS `o || k` where `o` is an optional string and `k` the fallback. -/
def jsOrElse (o : Option String) (k : String) : String :=
  if jsTruthy o then o.getD "" else k

/-- The `analysisByAgent` lookup of `transformPipelineResponse`: a JS `Map`
built from a list keeps the last entry per key. -/
def analysisByAgent (entries : List PipelineAnalyzedReasoning) (id : String) :
    Option PipelineAnalyzedReasoning :=
  entries.reverse.find? (fun e => e.agent_id = id)

/-- `transformPipelineResponse` from `api.ts` lines 138-203. -/
def transformPipelineResponse (data : PipelineResponse) : AnalysisResult :=
  let agents : List AgentData :=
    (data.agent_responses.getD []).mapIdx (fun index resp =>
      let analysis := analysisByAgent (data.analyzed_reasoning.getD []) resp.agent_id
      let reasoning := buildReasoningSteps (some resp.plan) analysis
      { id := jsStrOr (AGENT_IDS.getD index "")
          (jsStrOr resp.agent_id ("Agent-" ++ toString (index + 1))),
        name := humanFriendlyName resp.prompt_variant index,
        finalAnswer := extractFinalAnswer (some resp.explanation),
        assumptions := (analysis.bind (fun a => a.assumptions)).getD [],
        reasoning := reasoning,
        folTranslation := analysis.bind (fun a => a.fol_translation) })
  let agents := detectSharedReasoning agents
  let gateDecision : Option GateDecisionInfo :=
    data.gate_decision.map (fun gd =>
      { decision := gd.decision, reason := gd.reason, action := gd.action,
        suggestion := gd.suggestion, color := gd.color, icon := gd.icon })
  let robustness : Option RobustnessOverview :=
    data.robustness.map (fun rb =>
      { totalAgents := rb.total_agents.getD agents.length,
        distinctFamilies := rb.distinct_families.getD 0,
        confidence := rb.confidence.getD "Low",
        explanation := rb.explanation,
        recommendation := rb.recommendation })
  let derivedTrust :=
    determineTrustLevel (gateDecision.map (fun g => g.decision))
      (data.robustness.bind (fun r => r.score)) agents
  let trustDescription :=
    jsOrElse (gateDecision.map (fun g => g.reason))
      (jsOrElse (data.robustness.bind (fun r => r.explanation))
        (jsOrElse data.summary derivedTrust.2))
  { taskId := data.task_id,
    summary := data.summary,
    agents := agents,
    gateDecision := gateDecision,
    robustness := robustness,
    trustLevel := derivedTrust.1,
    trustDescription := trustDescription,
    families := none,
    runs := none,
    analysisError := none }

/-- Modelled from the spec: `mapRobustnessToTrust` is called by
`transformTaskPayload` (`api.ts` line 237) but is missing from the sources.
Per the verdict table (spec section 4.3) the ROBUST status is trusted, the
FRAGILE status is not, and every other status (including INSUFFICIENT_DATA
and MODERATE) maps to the uncertain middle state. -/
def mapRobustnessToTrust (status : String) (agents : List AgentData) :
    TrustLevel × String :=
  match status with
  | "ROBUST" => (.Robust, "Multiple distinct reasoning families support the answer.")
  | "FRAGILE" => (.Fragile, "A single reasoning family supports the answer.")
  | _ =>
      let _ := agents
      (.Uncertain, "Robustness is undetermined for this task.")

/-- The `plan_steps`/`assumptions` selection of `transformTaskPayload`:
`a?.length ? a : b || []` (a defined nonempty array wins, else the fallback
or the empty array). -/
def pickListField (a b : Option (List String)) : List String :=
  match a with
  | some l => if l ≠ [] then l else b.getD []
  | none => b.getD []

/-- The per-run summarisation of `transformTaskPayload` (`api.ts` 207-217). -/
def toTaskRun (run : RunDoc) : TaskRun :=
  { id := run.rid,
    agentRole := run.agent_role,
    finalAnswer :=
      jsOrOpt run.final_answer (run.raw_summary.bind (fun s => s.final_answer)),
    planSteps := some (pickListField run.plan_steps (run.raw_summary.bind (fun s => s.plan_steps))),
    assumptions := some (pickListField run.assumptions (run.raw_summary.bind (fun s => s.assumptions))),
    isValid := run.is_valid }

/-- `transformTaskPayload` from `api.ts` lines 205-261. -/
def transformTaskPayload (taskId : String) (payload : TaskResponsePayload) : AnalysisResult :=
  let task := payload.task
  let runs := payload.runs
  let summarizedRuns := runs.map toTaskRun
  let agents : List AgentData :=
    (runs.take AGENT_IDS.length).mapIdx (fun index run =>
      let summaryFA := run.raw_summary.bind (fun s => s.final_answer)
      let planSteps := pickListField run.plan_steps (run.raw_summary.bind (fun s => s.plan_steps))
      let planText :=
        String.intercalate "\n"
          (planSteps.mapIdx (fun idx step => toString (idx + 1) ++ ". " ++ step))
      { id := jsStrOr (AGENT_IDS.getD index "")
          (jsStrOr (run.rid.getD "") ("Agent-" ++ toString (index + 1))),
        name := humanFriendlyName (run.agent_role.getD "") index,
        finalAnswer := jsOrElse (jsOrOpt run.final_answer summaryFA) "No answer provided",
        assumptions := pickListField run.assumptions (run.raw_summary.bind (fun s => s.assumptions)),
        reasoning := buildReasoningSteps (some planText) none,
        folTranslation := none })
  let agents := detectSharedReasoning agents
  let robustnessStatus := jsToUpper (task.robustness_status.getD "")
  let trust := mapRobustnessToTrust robustnessStatus agents
  let robustness : RobustnessOverview :=
    { totalAgents := runs.length,
      distinctFamilies :=
        match task.num_families with
        | some n => n
        | none => match task.families with
          | some fs => fs.length
          | none => 0,
      confidence := if robustnessStatus = "ROBUST" then "High" else "Low",
      explanation := some ("Robustness status: " ++ jsStrOr robustnessStatus "UNKNOWN"),
      recommendation := none }
  let families : List TaskFamily :=
    (task.families.getD []).map (fun f =>
      { familyId := f.family_id, repRunId := f.rep_run_id, runIds := f.run_ids })
  { taskId := some taskId,
    summary := some ("Robustness: " ++ jsStrOr robustnessStatus "UNKNOWN"),
    trustLevel := trust.1,
    trustDescription := trust.2,
    agents := agents,
    gateDecision := none,
    robustness := some robustness,
    families := some families,
    runs := some summarizedRuns,
    analysisError := task.analysis_error }

/-! ## Fetch model for `generateAnalysis` (`api.ts` lines 86-136) -/

/-- A fetch response.  `ok` is `Response.ok`; `body` is the parsed JSON body
when `response.json()` succeeds (`none` models a body that is not valid JSON,
on which `response.json()` rejects); `errField` is the `error` field that
`safeJson(response)?.error` would produce on the error paths. -/
structure Resp (β : Type) where
  ok : Bool
  body : Option β
  errField : Option String

/-- `await response.json()`: returns the parsed body or rejects. -/
def respJson {β : Type} (r : Resp β) : Except String β :=
  match r.body with
  | some b => .ok b
  | none => .error "Unexpected end of JSON input"

/-- The body of `POST /tasks`, read as `{ task_id }`. -/
structure CreateTaskBody where
  task_id : String

/-- The network environment a `generateAnalysis` call runs against: the
response to `POST /tasks`, the response to `GET /tasks/{id}` for each id, and
the response to the fallback `POST /analyze`. -/
structure FetchEnv where
  createRes : Resp CreateTaskBody
  taskRes : String → Resp TaskResponsePayload
  analyzeRes : Resp PipelineResponse

/-- `generateFromTaskApi` from `api.ts` lines 108-128. -/
def generateFromTaskApi (env : FetchEnv) : Except String AnalysisResult := do
  if env.createRes.ok = false then
    throw (env.createRes.errField.getD "Failed to create task")
  let created ← respJson env.createRes
  let taskRes := env.taskRes created.task_id
  if taskRes.ok = false then
    throw (taskRes.errField.getD "Failed to fetch task")
  let payload ← respJson taskRes
  return transformTaskPayload created.task_id payload

/-- `generateAnalysis` from `api.ts` lines 86-106: try the task-based API,
fall back to `POST /analyze` on any task-path failure. -/
def generateAnalysis (env : FetchEnv) : Except String AnalysisResult :=
  match generateFromTaskApi env with
  | .ok r => .ok r
  | .error _ =>
      if env.analyzeRes.ok = false then
        .error (env.analyzeRes.errField.getD "Failed to generate analysis")
      else
        match respJson env.analyzeRes with
        | .ok data => .ok (transformPipelineResponse data)
        | .error e => .error e

/-- Whether an `Except` result is an error (a rejected promise). -/
def isErrorResult {β : Type} : Except String β → Bool
  | .ok _ => false
  | .error _ => true

/-! ## `computeAnswerAgreement` (`PromptInput.tsx` lines 495-505) -/

/-- The `valid` filter of `computeAnswerAgreement`: runs that are valid and
have a nonempty (after trimming) final answer. -/
def validAnswerRuns (runs : List TaskRun) : List TaskRun :=
  runs.filter (fun run => jsTruthyBool run.isValid && jsTrim (run.finalAnswer.getD "") ≠ "")

/-- `computeAnswerAgreement` from `PromptInput.tsx` lines 495-505.  The
maximum over the `counts` table is taken as the maximum occurrence count of a
normalised answer, and `Math.round((mx / len) * 100)` is computed exactly as
`(200 * mx + len) / (2 * len)` in natural division. -/
def computeAnswerAgreement (runs : List TaskRun) : String :=
  let valid := validAnswerRuns runs
  if valid = [] then "N/A"
  else
    let keys := valid.map (fun run => jsToLower (jsTrim (run.finalAnswer.getD "")))
    let mx := (keys.map (fun k => (keys.filter (fun x => x = k)).length)).foldl Nat.max 0
    toString ((200 * mx + valid.length) / (2 * valid.length)) ++ "%"

/-! ## App state model (`App` component, `src/unnamed/part_001`) -/

/-- The `scenarioId` state of the `App` component. -/
inductive ScenarioId
  | fragile
  | robust
  | live
deriving DecidableEq, Repr

/-- The `App` component state touched by `handleAnalyze`. -/
structure AppState where
  hasAnalyzed : Bool
  isLoading : Bool
  error : Option String
  scenarioId : ScenarioId
  liveResult : Option AnalysisResult
  key : Nat
deriving DecidableEq, Repr

/-- `handleAnalyze` from the `App` component (`part_001` lines 29-48), as a
state transformer over the outcome of the awaited `generateAnalysis` call:
`setError(null)` and `setIsLoading(true)` run first, then the try branch on
success or the catch branch (error message recorded, demo fallback) on
failure, and the finally branch clears the loading flag either way. -/
def handleAnalyze (outcome : Except String AnalysisResult) (s : AppState) : AppState :=
  let s := { s with error := none, isLoading := true }
  let s :=
    match outcome with
    | .ok result =>
        { s with liveResult := some result, scenarioId := .live,
                 hasAnalyzed := true, key := s.key + 1 }
    | .error msg =>
        { s with error := some msg, scenarioId := .fragile, hasAnalyzed := true }
  { s with isLoading := false }

/-- Which scenario object the `App` render displays. -/
inductive DisplayedScenario
  | live (result : AnalysisResult)
  | demoFragile
  | demoRobust
deriving DecidableEq, Repr

/-- The `currentScenario` selection of the `App` component: the live result
when `scenarioId` is live and a live result exists; otherwise the fragile
demo scenario when `scenarioId` is fragile, else the robust demo scenario. -/
def selectScenario : ScenarioId → Option AnalysisResult → DisplayedScenario
  | .live, some r => .live r
  | .live, none => .demoRobust
  | .fragile, _ => .demoFragile
  | .robust, _ => .demoRobust

/-! ## Demo data (`data.ts`, `src/unnamed/part_002`) -/

/-- `FRAGILE_REASONING` from `data.ts`: the six-step reasoning list shared by
all three demo agents, every step flagged `isShared: true`. -/
def FRAGILE_REASONING : List ReasoningStep :=
  [{ id := 1, text := "Population of Chicago is approx 2.7 million.", isShared := true },
   { id := 2, text := "Assume 2 people per household -> 1.35 million households.", isShared := true },
   { id := 3, text := "Assume 1 in 20 households has a piano -> 67,500 pianos.", isShared := true },
   { id := 4, text := " pianos tuned once per year -> 67,500 tunings/year.", isShared := true },
   { id := 5, text := "Tuner does 2 tunings/day * 5 days * 50 weeks = 500 tunings/year/tuner.", isShared := true },
   { id := 6, text := "Total tuners = 67,500 / 500 = 135 tuners.", isShared := true }]

/-- The `agents` of `FRAGILE_SCENARIO` from `data.ts`. -/
def FRAGILE_SCENARIO_agents : List AgentData :=
  [{ id := "A", name := "Agent Alpha", finalAnswer := "Approx. 135 Tuners",
     reasoning := FRAGILE_REASONING,
     assumptions := ["Chicago pop = 2.7M", "1/20 piano ownership rate"],
     folTranslation := none },
   { id := "B", name := "Agent Beta", finalAnswer := "Approx. 135 Tuners",
     reasoning := FRAGILE_REASONING,
     assumptions := ["Chicago pop = 2.7M", "1/20 piano ownership rate"],
     folTranslation := none },
   { id := "C", name := "Agent Gamma", finalAnswer := "About 135 Tuners",
     reasoning := FRAGILE_REASONING,
     assumptions := ["Chicago pop = 2.7M", "1/20 piano ownership rate"],
     folTranslation := none }]

/-! ## Core pipeline model

The backend pipeline (agent runner, family clusterer, robustness scorer,
orchestrator) is not among the repository sources — only its front-end
consumers are.  The definitions below are modelled from the specification. -/

/-- Modelled from the spec: a `Run` record (spec section 3) — one agent
attempt with its parsed plan steps, assumption set, final answer, validity
flag, and the cached embedding vector of its concatenated plan text.  `rid`
is the unique run identifier (creation order). -/
structure Run where
  rid : Nat
  planSteps : List String
  assumptions : List String
  finalAnswer : String
  isValid : Bool
  embedding : List ℚ
deriving DecidableEq, Repr

/-- Dot product of two embedding vectors (componentwise, zero past the end of
either vector). -/
def dotProd : List ℚ → List ℚ → ℚ
  | x :: xs, y :: ys => x * y + dotProd xs ys
  | _, _ => 0

/-- Modelled from the spec: the plan-similarity threshold test (spec section
4.2, step 2).  `plan_sim(u, v)` is the cosine `⟪u,v⟫ / (‖u‖ ‖v‖)`; for a
threshold `0 ≤ t` the comparison `plan_sim ≥ t` is decided without square
roots as `0 ≤ ⟪u,v⟫ ∧ t² ‖u‖² ‖v‖² ≤ ⟪u,v⟫²`.  The cosine is undefined for a
zero vector, in which case the test is `false`. -/
def planSimGe (u v : List ℚ) (t : ℚ) : Bool :=
  if dotProd u u = 0 ∨ dotProd v v = 0 then false
  else decide (0 ≤ dotProd u v) && decide (t ^ 2 * (dotProd u u * dotProd v v) ≤ dotProd u v ^ 2)

/-- Modelled from the spec: assumption strings are case-normalised and
whitespace-trimmed before set construction (spec section 4.2, step 1). -/
def normalizeAssumption (s : String) : String := jsTrim (jsToLower s)

/-- The normalised assumption set of a run. -/
def assumptionFinset (r : Run) : Finset String :=
  (r.assumptions.map normalizeAssumption).toFinset

/-- Modelled from the spec: Jaccard overlap of two assumption sets; `0` when
either set is empty (spec section 4.2, step 1). -/
def assumptionSim (A B : Finset String) : ℚ :=
  if A = ∅ ∨ B = ∅ then 0 else ((A ∩ B).card : ℚ) / ((A ∪ B).card : ℚ)

/-- Modelled from the spec: two runs are linked iff the plan similarity
reaches the plan threshold or the assumption overlap reaches the assumption
threshold (OR-combination, spec section 4.2, step 2). -/
def linked (pThr aThr : ℚ) (r s : Run) : Bool :=
  planSimGe r.embedding s.embedding pThr ||
    decide (aThr ≤ assumptionSim (assumptionFinset r) (assumptionFinset s))

/-- Default plan-similarity threshold (spec section 4.2). -/
def PLAN_SIM_THRESHOLD : ℚ := 85 / 100

/-- Default assumption-similarity threshold (spec section 4.2). -/
def ASSUMPTION_SIM_THRESHOLD : ℚ := 70 / 100

/-- Whether a run of the current group list is linked to `r`. -/
def hitsGroup {α : Type} (E : α → α → Bool) (r : α) (g : List α) : Bool :=
  g.any (fun s => E r s)

/-- The merged group formed when `r` arrives: `r` together with the members
of every existing group linked to it. -/
def newGroup {α : Type} (E : α → α → Bool) (gs : List (List α)) (r : α) : List α :=
  r :: (gs.filter (fun g => hitsGroup E r g)).flatten

/-- One clustering step: the incoming element `r` is merged with every
existing group containing an element linked to it (those groups become one),
and the remaining groups are kept. -/
def addGroup {α : Type} (E : α → α → Bool) (gs : List (List α)) (r : α) : List (List α) :=
  newGroup E gs r :: gs.filter (fun g => !hitsGroup E r g)

/-- Incremental connected components: fold the elements in arrival order
through `addGroup`.  The resulting groups are the connected components of the
link graph (proved below), so the partition is arrival-order independent. -/
def clusterList {α : Type} (E : α → α → Bool) (l : List α) : List (List α) :=
  l.foldl (addGroup E) []

/-- Modelled from the spec: the family clusterer (spec section 4.2) —
families are the connected components of the link graph over the valid runs;
invalid runs are excluded before clustering.  Representative selection is not
modelled (no claim depends on it). -/
def clusterWith (pThr aThr : ℚ) (runs : List Run) : List (List Run) :=
  clusterList (linked pThr aThr) (runs.filter (fun r => r.isValid))

/-- The family clusterer at the default thresholds. -/
def cluster (runs : List Run) : List (List Run) :=
  clusterWith PLAN_SIM_THRESHOLD ASSUMPTION_SIM_THRESHOLD runs

/-- A family partition viewed as the set of its member sets. -/
def partitionFinsets {α : Type} [DecidableEq α] (gs : List (List α)) : Finset (Finset α) :=
  (gs.map List.toFinset).toFinset

/-- Modelled from the spec: the robustness verdict (spec section 4.3). -/
inductive Verdict
  | INSUFFICIENT_DATA
  | FRAGILE
  | MODERATE
  | ROBUST
deriving DecidableEq, Repr

/-- Modelled from the spec: the robustness scorer maps the family count to a
verdict by the table of spec section 4.3. -/
def verdictOf (f : Nat) : Verdict :=
  if f = 0 then .INSUFFICIENT_DATA
  else if f = 1 then .FRAGILE
  else if f = 2 then .MODERATE
  else .ROBUST

/-- Modelled from the spec: the task lifecycle states (spec section 4.4). -/
inductive TaskStatus
  | PENDING
  | RUNNING
  | CLUSTERING
  | SCORED
  | DONE
  | FAILED
deriving DecidableEq, Repr

/-- The terminal record of one orchestrated task. -/
structure TaskOutcome where
  status : TaskStatus
  families : List (List Run)
  verdict : Option Verdict
  error : Option String
deriving DecidableEq, Repr

/-- Modelled from the spec: the orchestrator tail (spec sections 4.4 and 7)
from the point where all runs are persisted — clustering and scoring always
run and the task reaches `DONE`; only a persistence failure moves the task to
`FAILED`.  Zero valid runs is an outcome (`INSUFFICIENT_DATA`), never an
exception. -/
def orchestrate (runs : List Run) (persistAvailable : Bool) : TaskOutcome :=
  if persistAvailable then
    let fams := cluster runs
    { status := .DONE, families := fams,
      verdict := some (verdictOf fams.length), error := none }
  else
    { status := .FAILED, families := [], verdict := none,
      error := some "persistence unavailable" }

/-! ## Connectivity predicates for the clustering proofs -/

/-- A single link edge inside the vertex set `S`. -/
def StepIn {α : Type} (E : α → α → Bool) (S : Finset α) (x y : α) : Prop :=
  x ∈ S ∧ y ∈ S ∧ E x y = true

/-- `b` is reachable from `a` through link edges inside `S` (with `a ∈ S`):
the canonical, order-free notion of "same connected component". -/
def ConnIn {α : Type} (E : α → α → Bool) (S : Finset α) (a b : α) : Prop :=
  a ∈ S ∧ Relation.ReflTransGen (StepIn E S) a b

/-- `gs` is a list of the connected components of the link graph on `S`:
groups are nonempty, each group is exactly the reachability class of any of
its members, and every vertex is covered. -/
structure IsComponents {α : Type} (E : α → α → Bool) (S : Finset α)
    (gs : List (List α)) : Prop where
  nonempty : ∀ g ∈ gs, g ≠ []
  mem_char : ∀ g ∈ gs, ∀ a ∈ g, ∀ b, b ∈ g ↔ ConnIn E S a b
  cover : ∀ x ∈ S, ∃ g ∈ gs, x ∈ g

/-! ## Concrete inputs used by the witnesses and counterexamples -/

/-- A valid run with plan embedding `[1, 0]` and assumption set `{alpha}`. -/
def runP1 : Run :=
  { rid := 1, planSteps := ["estimate by population"], assumptions := ["alpha"],
    finalAnswer := "135", isValid := true, embedding := [1, 0] }

/-- A valid run sharing the embedding direction and assumptions of `runP1`. -/
def runP2 : Run :=
  { rid := 2, planSteps := ["estimate by population again"], assumptions := ["alpha"],
    finalAnswer := "135", isValid := true, embedding := [1, 0] }

/-- A valid run orthogonal to `runP1` with a disjoint assumption set. -/
def runP3 : Run :=
  { rid := 3, planSteps := ["count business listings"], assumptions := ["beta"],
    finalAnswer := "140", isValid := true, embedding := [0, 1] }

/-- An invalid run (malformed agent output). -/
def runInvalid : Run :=
  { rid := 4, planSteps := [], assumptions := [], finalAnswer := "",
    isValid := false, embedding := [] }

/-- A mixed run list: two linked valid runs, one unlinked valid run, one
invalid run. -/
def witnessRuns : List Run := [runP1, runP2, runP3, runInvalid]

/-- Three distinct valid runs with identical plans, assumptions, and (nonzero)
plan embeddings. -/
def identicalRuns : List Run :=
  [{ rid := 1, planSteps := ["same plan"], assumptions := ["same assumption"],
     finalAnswer := "42", isValid := true, embedding := [2] },
   { rid := 2, planSteps := ["same plan"], assumptions := ["same assumption"],
     finalAnswer := "42", isValid := true, embedding := [2] },
   { rid := 3, planSteps := ["same plan"], assumptions := ["same assumption"],
     finalAnswer := "42", isValid := true, embedding := [2] }]

/-- A run list in which no run is valid. -/
def allInvalidRuns : List Run := [runInvalid]

/-- Front-end run rows in which no run is valid. -/
def allInvalidTaskRuns : List TaskRun :=
  [{ id := some "r1", agentRole := some "skeptic", finalAnswer := some "135",
     planSteps := some [], assumptions := some [], isValid := some false },
   { id := some "r2", agentRole := none, finalAnswer := none,
     planSteps := none, assumptions := none, isValid := none }]

/-- A fetch environment in which the task API fails, and the fallback
`POST /analyze` responds `200 OK` with a body that is not valid JSON. -/
def cexFetchEnv : FetchEnv :=
  { createRes := { ok := false, body := none, errField := none },
    taskRes := fun _ => { ok := false, body := none, errField := none },
    analyzeRes := { ok := true, body := none, errField := none } }

/-! ## Helper lemmas about trimming -/

theorem dropWhile_idem (p : Char → Bool) (l : List Char) :
    (l.dropWhile p).dropWhile p = l.dropWhile p := by
  induction l with
  | nil => rfl
  | cons a t ih =>
      by_cases h : p a
      · simp [List.dropWhile_cons, h, ih]
      · simp [List.dropWhile_cons, h]

theorem dropWhile_eq_self_of_head (p : Char → Bool) (l : List Char)
    (h : (l.head?.all fun c => !p c) = true) : l.dropWhile p = l := by
  cases l with
  | nil => rfl
  | cons a t => simp_all [List.dropWhile_cons]

theorem head?_dropWhile_all (p : Char → Bool) (l : List Char) :
    ((l.dropWhile p).head?.all fun c => !p c) = true := by
  cases h : l.dropWhile p with
  | nil => rfl
  | cons a t =>
      have w : l.dropWhile p ≠ [] := by simp [h]
      have hp := List.head_dropWhile_not p l w
      have ha : (l.dropWhile p).head w = a := by simp [h]
      rw [ha] at hp
      simp [hp]

theorem getLast?_dropWhile_of_ne_nil (p : Char → Bool) (l : List Char)
    (h : l.dropWhile p ≠ []) : (l.dropWhile p).getLast? = l.getLast? := by
  obtain ⟨x, hx⟩ : ∃ x, (l.dropWhile p).getLast? = some x := by
    rcases hh : (l.dropWhile p).getLast? with _ | x
    · exact absurd (List.getLast?_eq_none_iff.mp hh) h
    · exact ⟨x, rfl⟩
  conv_rhs => rw [← List.takeWhile_append_dropWhile p l]
  rw [List.getLast?_append, hx]
  rfl

theorem trimChars_head_all (l : List Char) :
    ((trimChars l).head?.all fun c => !wsChar c) = true := by
  simp only [trimChars, List.head?_reverse]
  by_cases h : ((l.dropWhile wsChar).reverse.dropWhile wsChar) = []
  · simp [h]
  · rw [getLast?_dropWhile_of_ne_nil wsChar _ h, List.getLast?_reverse]
    exact head?_dropWhile_all wsChar l

theorem trimChars_getLast_all (l : List Char) :
    ((trimChars l).getLast?.all fun c => !wsChar c) = true := by
  simp only [trimChars, List.getLast?_reverse]
  exact head?_dropWhile_all wsChar _

theorem trimChars_idem (l : List Char) : trimChars (trimChars l) = trimChars l := by
  have h1 := dropWhile_eq_self_of_head wsChar (trimChars l) (trimChars_head_all l)
  have h2 : ((trimChars l).reverse.head?.all fun c => !wsChar c) = true := by
    rw [List.head?_reverse]
    exact trimChars_getLast_all l
  have h2' := dropWhile_eq_self_of_head wsChar (trimChars l).reverse h2
  conv_lhs => rw [trimChars, h1, h2', List.reverse_reverse]

theorem jsTrim_idem (s : String) : jsTrim (jsTrim s) = jsTrim s := by
  simp only [jsTrim]
  exact congrArg String.mk (trimChars_idem s.data)

/-! ## Helper lemmas about the clustering fold -/

theorem hitsGroup_iff {α : Type} {E : α → α → Bool} {r : α} {g : List α} :
    hitsGroup E r g = true ↔ ∃ s ∈ g, E r s = true := by
  simp [hitsGroup]

theorem hitsGroup_false_iff {α : Type} {E : α → α → Bool} {r : α} {g : List α} :
    hitsGroup E r g = false ↔ ∀ s ∈ g, E r s = false := by
  simp [hitsGroup]

theorem addGroup_flatten_perm {α : Type} (E : α → α → Bool) (gs : List (List α)) (r : α) :
    ((addGroup E gs r).flatten).Perm (r :: gs.flatten) := by
  simp only [addGroup, newGroup, List.flatten_cons, List.cons_append]
  refine List.Perm.cons r ?_
  rw [← List.flatten_append]
  exact (List.filter_append_perm _ gs).flatten

theorem foldl_addGroup_flatten_perm {α : Type} (E : α → α → Bool) :
    ∀ (l : List α) (gs : List (List α)),
      ((l.foldl (addGroup E) gs).flatten).Perm (l ++ gs.flatten)
  | [], gs => by simp
  | x :: xs, gs => by
      have h1 := foldl_addGroup_flatten_perm E xs (addGroup E gs x)
      have h2 : (xs ++ (addGroup E gs x).flatten).Perm (xs ++ (x :: gs.flatten)) :=
        List.Perm.append_left xs (addGroup_flatten_perm E gs x)
      simp only [List.foldl_cons]
      exact (h1.trans h2).trans List.perm_middle

theorem clusterList_flatten_perm {α : Type} (E : α → α → Bool) (l : List α) :
    ((clusterList E l).flatten).Perm l := by
  have := foldl_addGroup_flatten_perm E l []
  simpa [clusterList] using this

/-! ## Helper lemmas about connectivity -/

theorem ConnIn.refl {α : Type} {E : α → α → Bool} {S : Finset α} {a : α}
    (ha : a ∈ S) : ConnIn E S a a := ⟨ha, .refl⟩

theorem ConnIn.mem_right {α : Type} {E : α → α → Bool} {S : Finset α} {a b : α}
    (h : ConnIn E S a b) : b ∈ S := by
  rcases h with ⟨ha, hp⟩
  induction hp with
  | refl => exact ha
  | tail p step ih => exact step.2.1

theorem ConnIn.trans {α : Type} {E : α → α → Bool} {S : Finset α} {a b c : α}
    (h1 : ConnIn E S a b) (h2 : ConnIn E S b c) : ConnIn E S a c :=
  ⟨h1.1, h1.2.trans h2.2⟩

theorem ConnIn.symm {α : Type} {E : α → α → Bool} {S : Finset α} {a b : α}
    (h : ConnIn E S a b) (hE : ∀ x y, E x y = E y x) : ConnIn E S b a := by
  refine ⟨h.mem_right, ?_⟩
  rcases h with ⟨ha, hp⟩
  induction hp with
  | refl => exact .refl
  | tail p step ih =>
      exact Relation.ReflTransGen.head ⟨step.2.1, step.1, by rw [hE]; exact step.2.2⟩ ih

theorem ConnIn.mono {α : Type} {E : α → α → Bool} {S T : Finset α} {a b : α}
    (h : ConnIn E S a b) (hsub : S ⊆ T) : ConnIn E T a b :=
  ⟨hsub h.1, h.2.mono (fun x y hxy => ⟨hsub hxy.1, hsub hxy.2.1, hxy.2.2⟩)⟩

theorem IsComponents.mem_vertex {α : Type} {E : α → α → Bool} {S : Finset α}
    {gs : List (List α)} (h : IsComponents E S gs) {g : List α} (hg : g ∈ gs)
    {a : α} (ha : a ∈ g) : a ∈ S :=
  ((h.mem_char g hg a ha a).mp ha).1

theorem mem_newGroup_iff {α : Type} {E : α → α → Bool} {gs : List (List α)} {r x : α} :
    x ∈ newGroup E gs r ↔ x = r ∨ ∃ g ∈ gs, hitsGroup E r g = true ∧ x ∈ g := by
  simp only [newGroup, List.mem_cons, List.mem_flatten, List.mem_filter]
  constructor
  · rintro (rfl | ⟨g, ⟨hg, hhit⟩, hxg⟩)
    · exact Or.inl rfl
    · exact Or.inr ⟨g, hg, hhit, hxg⟩
  · rintro (rfl | ⟨g, hg, hhit, hxg⟩)
    · exact Or.inl rfl
    · exact Or.inr ⟨g, ⟨hg, hhit⟩, hxg⟩

theorem isComponents_addGroup {α : Type} [DecidableEq α] {E : α → α → Bool}
    (hE : ∀ x y, E x y = E y x) {S : Finset α} {gs : List (List α)}
    (h : IsComponents E S gs) (r : α) :
    IsComponents E (insert r S) (addGroup E gs r) := by
  have n1 : ∀ x ∈ newGroup E gs r, ConnIn E (insert r S) r x := by
    intro x hx
    rcases mem_newGroup_iff.mp hx with hxr | ⟨g, hg, hhit, hxg⟩
    · rw [hxr]
      exact ConnIn.refl (Finset.mem_insert_self r S)
    · rcases hitsGroup_iff.mp hhit with ⟨s, hsg, hEs⟩
      have hsS : s ∈ S := h.mem_vertex hg hsg
      have hsx : ConnIn E S s x := (h.mem_char g hg s hsg x).mp hxg
      have lift : ConnIn E (insert r S) s x := hsx.mono (Finset.subset_insert r S)
      exact ⟨Finset.mem_insert_self r S,
        Relation.ReflTransGen.head
          ⟨Finset.mem_insert_self r S, Finset.mem_insert_of_mem hsS, hEs⟩ lift.2⟩
  have n2 : ∀ x b, x ∈ newGroup E gs r →
      Relation.ReflTransGen (StepIn E (insert r S)) x b → b ∈ newGroup E gs r := by
    intro x b hx hp
    induction hp with
    | refl => exact hx
    | tail p step ih =>
        rename_i mid fin
        by_cases hbr : fin = r
        · subst hbr
          exact mem_newGroup_iff.mpr (Or.inl rfl)
        · have hbS : fin ∈ S := by
            rcases Finset.mem_insert.mp step.2.1 with h' | h'
            · exact absurd h' hbr
            · exact h'
          rcases mem_newGroup_iff.mp ih with rfl | ⟨g, hg, hhit, hcg⟩
          · rcases h.cover fin hbS with ⟨g, hg, hbg⟩
            exact mem_newGroup_iff.mpr
              (Or.inr ⟨g, hg, hitsGroup_iff.mpr ⟨fin, hbg, step.2.2⟩, hbg⟩)
          · have hcS : mid ∈ S := h.mem_vertex hg hcg
            have hconn : ConnIn E S mid fin :=
              ⟨hcS, Relation.ReflTransGen.single ⟨hcS, hbS, step.2.2⟩⟩
            have hbg : fin ∈ g := (h.mem_char g hg mid hcg fin).mpr hconn
            exact mem_newGroup_iff.mpr (Or.inr ⟨g, hg, hhit, hbg⟩)
  have newChar : ∀ a ∈ newGroup E gs r, ∀ b,
      b ∈ newGroup E gs r ↔ ConnIn E (insert r S) a b := by
    intro a ha b
    constructor
    · intro hb
      exact ((n1 a ha).symm hE).trans (n1 b hb)
    · intro hconn
      have hrb : ConnIn E (insert r S) r b := (n1 a ha).trans hconn
      exact n2 r b (mem_newGroup_iff.mpr (Or.inl rfl)) hrb.2
  have missChar : ∀ g ∈ gs, hitsGroup E r g = false →
      ∀ a ∈ g, ∀ b, b ∈ g ↔ ConnIn E (insert r S) a b := by
    intro g hg hmiss a hag b
    constructor
    · intro hb
      exact ((h.mem_char g hg a hag b).mp hb).mono (Finset.subset_insert r S)
    · rintro ⟨_, hp⟩
      induction hp with
      | refl => exact hag
      | tail p step ih =>
          rename_i mid fin
          by_cases hbr : fin = r
          · exfalso
            have hmidg : mid ∈ g := ih
            have : E r mid = true := by rw [hE]; rw [hbr] at step; exact step.2.2
            exact absurd (hitsGroup_false_iff.mp hmiss mid hmidg) (by simp [this])
          · have hbS : fin ∈ S := by
              rcases Finset.mem_insert.mp step.2.1 with h' | h'
              · exact absurd h' hbr
              · exact h'
            have hmidg : mid ∈ g := ih
            have hmidS : mid ∈ S := h.mem_vertex hg hmidg
            have hconn : ConnIn E S mid fin :=
              ⟨hmidS, Relation.ReflTransGen.single ⟨hmidS, hbS, step.2.2⟩⟩
            exact (h.mem_char g hg mid hmidg fin).mpr hconn
  refine ⟨?_, ?_, ?_⟩
  · intro g hg
    rcases List.mem_cons.mp hg with rfl | hgmiss
    · simp [newGroup]
    · exact h.nonempty g (List.mem_filter.mp hgmiss).1
  · intro g hg a ha b
    rcases List.mem_cons.mp hg with rfl | hgmiss
    · exact newChar a ha b
    · obtain ⟨hgs, hmiss⟩ := List.mem_filter.mp hgmiss
      exact missChar g hgs (by simpa using hmiss) a ha b
  · intro x hx
    rcases Finset.mem_insert.mp hx with hxr | hxS
    · rw [hxr]
      exact ⟨newGroup E gs r, List.mem_cons_self _ _, mem_newGroup_iff.mpr (Or.inl rfl)⟩
    · rcases h.cover x hxS with ⟨g, hg, hxg⟩
      by_cases hhit : hitsGroup E r g = true
      · exact ⟨newGroup E gs r, List.mem_cons_self _ _,
          mem_newGroup_iff.mpr (Or.inr ⟨g, hg, hhit, hxg⟩)⟩
      · refine ⟨g, List.mem_cons_of_mem _ (List.mem_filter.mpr ⟨hg, by simpa using hhit⟩), hxg⟩

theorem isComponents_nil {α : Type} [DecidableEq α] (E : α → α → Bool) :
    IsComponents E (∅ : Finset α) [] := by
  refine ⟨?_, ?_, ?_⟩ <;> simp

theorem isComponents_foldl {α : Type} [DecidableEq α] {E : α → α → Bool}
    (hE : ∀ x y, E x y = E y x) :
    ∀ (l : List α) (S : Finset α) (gs : List (List α)), IsComponents E S gs →
      IsComponents E (S ∪ l.toFinset) (l.foldl (addGroup E) gs) := by
  intro l
  induction l with
  | nil => intro S gs h; simpa using h
  | cons x xs ih =>
      intro S gs h
      have h2 := ih (insert x S) (addGroup E gs x) (isComponents_addGroup hE h x)
      have hset : insert x S ∪ xs.toFinset = S ∪ (x :: xs).toFinset := by
        rw [List.toFinset_cons, Finset.insert_union, Finset.union_insert]
      rw [hset] at h2
      simpa using h2

theorem isComponents_clusterList {α : Type} [DecidableEq α] {E : α → α → Bool}
    (hE : ∀ x y, E x y = E y x) (l : List α) :
    IsComponents E l.toFinset (clusterList E l) := by
  have := isComponents_foldl hE l ∅ [] (isComponents_nil E)
  simpa [clusterList] using this

theorem partitionFinsets_subset {α : Type} [DecidableEq α] {E : α → α → Bool}
    {S : Finset α} {gs₁ gs₂ : List (List α)}
    (h₁ : IsComponents E S gs₁) (h₂ : IsComponents E S gs₂) :
    partitionFinsets gs₁ ⊆ partitionFinsets gs₂ := by
  intro t ht
  rw [partitionFinsets, List.mem_toFinset, List.mem_map] at ht
  obtain ⟨g, hg, rfl⟩ := ht
  obtain ⟨a, ha⟩ := List.exists_mem_of_ne_nil g (h₁.nonempty g hg)
  obtain ⟨g₂, hg₂, hag₂⟩ := h₂.cover a (h₁.mem_vertex hg ha)
  have hext : g.toFinset = g₂.toFinset := by
    ext b
    rw [List.mem_toFinset, List.mem_toFinset,
      h₁.mem_char g hg a ha b, h₂.mem_char g₂ hg₂ a hag₂ b]
  rw [hext, partitionFinsets, List.mem_toFinset, List.mem_map]
  exact ⟨g₂, hg₂, rfl⟩

theorem clusterList_perm_partition {α : Type} [DecidableEq α] {E : α → α → Bool}
    (hE : ∀ x y, E x y = E y x) {l₁ l₂ : List α} (hp : l₁.Perm l₂) :
    partitionFinsets (clusterList E l₁) = partitionFinsets (clusterList E l₂) := by
  have h₁ := isComponents_clusterList hE l₁
  have h₂ := isComponents_clusterList hE l₂
  rw [List.toFinset_eq_of_perm _ _ hp] at h₁
  exact Finset.Subset.antisymm (partitionFinsets_subset h₁ h₂) (partitionFinsets_subset h₂ h₁)

/-! ## Symmetry of the link relation -/

theorem dotProd_comm (u v : List ℚ) : dotProd u v = dotProd v u := by
  induction u generalizing v with
  | nil => cases v <;> simp [dotProd]
  | cons x xs ih =>
      cases v with
      | nil => simp [dotProd]
      | cons y ys => simp [dotProd, ih, mul_comm]

theorem planSimGe_symm (u v : List ℚ) (t : ℚ) : planSimGe u v t = planSimGe v u t := by
  simp only [planSimGe, dotProd_comm u v]
  by_cases h : dotProd u u = 0 ∨ dotProd v v = 0
  · rw [if_pos h, if_pos h.symm]
  · rw [if_neg h, if_neg (fun hc => h hc.symm)]
    have hc : (t ^ 2 * (dotProd u u * dotProd v v) ≤ dotProd v u ^ 2) ↔
        (t ^ 2 * (dotProd v v * dotProd u u) ≤ dotProd v u ^ 2) := by
      rw [mul_comm (dotProd u u)]
    rw [decide_eq_decide.mpr hc]

theorem assumptionSim_comm (A B : Finset String) : assumptionSim A B = assumptionSim B A := by
  simp only [assumptionSim, Finset.inter_comm A B, Finset.union_comm A B]
  by_cases h : A = ∅ ∨ B = ∅
  · rw [if_pos h, if_pos h.symm]
  · rw [if_neg h, if_neg (fun hc => h hc.symm)]

theorem linked_symm (pThr aThr : ℚ) (r s : Run) :
    linked pThr aThr r s = linked pThr aThr s r := by
  simp only [linked]
  rw [planSimGe_symm, assumptionSim_comm]

theorem dotProd_self_nonneg (u : List ℚ) : 0 ≤ dotProd u u := by
  induction u with
  | nil => simp [dotProd]
  | cons x xs ih =>
      simp only [dotProd]
      have := mul_self_nonneg x
      linarith

theorem foldl_addGroup_single {α : Type} {E : α → α → Bool} {m : List α}
    (hall : ∀ x ∈ m, ∀ y ∈ m, E x y = true) :
    ∀ (xs : List α) (g : List α), (∀ x ∈ xs, x ∈ m) → g ≠ [] → (∀ y ∈ g, y ∈ m) →
      ∃ g2, xs.foldl (addGroup E) [g] = [g2] ∧ g2 ≠ [] ∧ ∀ y ∈ g2, y ∈ m
  | [], g, _, hg, hgm => ⟨g, rfl, hg, hgm⟩
  | x :: xs, g, hxs, hg, hgm => by
      obtain ⟨y, hy⟩ := List.exists_mem_of_ne_nil g hg
      have hhit : hitsGroup E x g = true :=
        hitsGroup_iff.mpr ⟨y, hy, hall x (hxs x (List.mem_cons_self x xs)) y (hgm y hy)⟩
      have hstep : addGroup E [g] x = [x :: (g ++ [])] := by
        simp [addGroup, newGroup, List.filter, hhit]
      rw [List.foldl_cons, hstep]
      refine foldl_addGroup_single hall xs (x :: (g ++ []))
        (fun z hz => hxs z (List.mem_cons_of_mem x hz)) (by simp) ?_
      intro z hz
      rcases List.mem_cons.mp hz with rfl | hz'
      · exact hxs z (List.mem_cons_self z xs)
      · exact hgm z (by simpa using hz')

theorem clusterList_all_linked {α : Type} {E : α → α → Bool} {m : List α}
    (hne : m ≠ []) (hall : ∀ x ∈ m, ∀ y ∈ m, E x y = true) :
    (clusterList E m).length = 1 := by
  cases m with
  | nil => exact absurd rfl hne
  | cons x xs =>
      have h0 : addGroup E [] x = [[x]] := rfl
      obtain ⟨g2, heq, _, _⟩ :=
        foldl_addGroup_single hall xs [x]
          (fun z hz => List.mem_cons_of_mem x hz)
          (by simp)
          (by intro y hy; simp at hy; simp [hy])
      unfold clusterList
      rw [List.foldl_cons, h0, heq]
      rfl

/-! ## Claim theorems -/

/-- C1: the robustness verdict is determined by the number of distinct
families `F` alone: `F = 0` yields INSUFFICIENT_DATA, `F = 1` yields FRAGILE,
`F = 2` yields MODERATE, and `F ≥ 3` yields ROBUST; the stated biconditionals
make the four cases exhaustive and mutually exclusive. -/
theorem verdictOf_table_law (F : Nat) :
    (F = 0 ↔ verdictOf F = Verdict.INSUFFICIENT_DATA) ∧
    (F = 1 ↔ verdictOf F = Verdict.FRAGILE) ∧
    (F = 2 ↔ verdictOf F = Verdict.MODERATE) ∧
    (3 ≤ F ↔ verdictOf F = Verdict.ROBUST) := by
  rcases F with _ | _ | _ | n <;> simp [verdictOf] <;> omega

/-- C2 counterexample: the front-end derived trust level is not a function of
the family count — with the very same agents (hence the same runs and the
same families), a gate decision of BLOCK and one of ALLOW produce different
verdicts, so the verdict depends on the gate-decision string. -/
theorem determineTrustLevel_gate_dependent_cex :
    determineTrustLevel (some "BLOCK") none FRAGILE_SCENARIO_agents ≠
      determineTrustLevel (some "ALLOW") none FRAGILE_SCENARIO_agents := by
  decide

/-- C2 (amended): the front-end derived verdict is deterministic but is a
function of the gate-decision/robustness-score strings and the agent data,
not of the family count: when a truthy score string is present the agents are
ignored entirely and the verdict is `mapScoreToTrust` of that string, and
when no score is present the verdict is `calculateTrustFromAgents` of the
agents. -/
theorem determineTrustLevel_characterization (gd rs : Option String)
    (agents agents2 : List AgentData) (h : jsTruthy (jsOrOpt gd rs) = true) :
    determineTrustLevel gd rs agents = determineTrustLevel gd rs agents2 ∧
    determineTrustLevel none none agents = calculateTrustFromAgents agents := by
  refine ⟨?_, rfl⟩
  unfold determineTrustLevel
  rcases hgd : jsOrOpt gd rs with _ | s
  · rw [hgd] at h
    simp [jsTruthy] at h
  · rw [hgd] at h
    have hs : ¬ s = "" := by simpa [jsTruthy] using h
    simp only [hgd, if_neg hs]

/-- Witness for C2: concrete instantiation at a BLOCK gate decision. -/
theorem determineTrustLevel_characterization_witness :
    jsTruthy (jsOrOpt (some "BLOCK") none) = true ∧
    (determineTrustLevel (some "BLOCK") none [] =
        determineTrustLevel (some "BLOCK") none FRAGILE_SCENARIO_agents ∧
      determineTrustLevel none none [] = calculateTrustFromAgents []) :=
  ⟨by decide,
   determineTrustLevel_characterization (some "BLOCK") none [] FRAGILE_SCENARIO_agents
     (by decide)⟩

/-- C7: every analysis request ends in a terminal, inspectable state — after
`handleAnalyze` completes, the loading flag is cleared whether the request
succeeded or failed; on success the live result is stored and displayed with
no error; on failure the error reason is recorded and the fragile demo data
is displayed alongside it. -/
theorem handleAnalyze_terminal_state (r : AnalysisResult) (m : String) (s : AppState) :
    (handleAnalyze (.ok r) s).isLoading = false ∧
    (handleAnalyze (.ok r) s).hasAnalyzed = true ∧
    (handleAnalyze (.ok r) s).error = none ∧
    (handleAnalyze (.ok r) s).liveResult = some r ∧
    selectScenario (handleAnalyze (.ok r) s).scenarioId
      (handleAnalyze (.ok r) s).liveResult = .live r ∧
    (handleAnalyze (.error m) s).isLoading = false ∧
    (handleAnalyze (.error m) s).hasAnalyzed = true ∧
    (handleAnalyze (.error m) s).error = some m ∧
    selectScenario (handleAnalyze (.error m) s).scenarioId
      (handleAnalyze (.error m) s).liveResult = .demoFragile := by
  refine ⟨rfl, rfl, rfl, rfl, rfl, rfl, rfl, rfl, ?_⟩
  cases s.liveResult <;> rfl

/-- C3: the computed families partition exactly the valid runs — every family
is nonempty and contains only valid runs of the input, every valid run
belongs to exactly one family, distinct families are disjoint, and the union
of the family member sets equals the set of valid runs. -/
theorem cluster_partitions_validRuns (l : List Run)
    (hnd : (l.filter (fun r => r.isValid)).Nodup) :
    (∀ g ∈ cluster l, g ≠ []) ∧
    (∀ g ∈ cluster l, ∀ r ∈ g, r ∈ l ∧ r.isValid = true) ∧
    (∀ r ∈ l, r.isValid = true → ∃! g, g ∈ cluster l ∧ r ∈ g) ∧
    (∀ g₁ ∈ cluster l, ∀ g₂ ∈ cluster l, g₁ ≠ g₂ → ∀ x ∈ g₁, x ∉ g₂) ∧
    (cluster l).flatten.toFinset = (l.filter (fun r => r.isValid)).toFinset := by
  have hsym := linked_symm PLAN_SIM_THRESHOLD ASSUMPTION_SIM_THRESHOLD
  have comps := isComponents_clusterList hsym (l.filter (fun r => r.isValid))
  have perm := clusterList_flatten_perm (linked PLAN_SIM_THRESHOLD ASSUMPTION_SIM_THRESHOLD)
    (l.filter (fun r => r.isValid))
  have hceq : cluster l =
      clusterList (linked PLAN_SIM_THRESHOLD ASSUMPTION_SIM_THRESHOLD)
        (l.filter (fun r => r.isValid)) := rfl
  have hflat : (cluster l).flatten.Nodup := by
    rw [hceq]
    exact perm.nodup_iff.mpr hnd
  have hpair := (List.nodup_flatten.mp hflat).2
  have hdisj : ∀ g₁ ∈ cluster l, ∀ g₂ ∈ cluster l, g₁ ≠ g₂ → ∀ x ∈ g₁, x ∉ g₂ := by
    intro g₁ hg₁ g₂ hg₂ hne x hx
    have := List.Pairwise.forall (fun _ _ h => h.symm) hpair hg₁ hg₂ hne
    exact List.disjoint_left.mp this hx
  have hmem : ∀ g ∈ cluster l, ∀ r ∈ g, r ∈ l ∧ r.isValid = true := by
    intro g hg r hr
    have : r ∈ (cluster l).flatten := List.mem_flatten.mpr ⟨g, hg, hr⟩
    rw [hceq] at this
    have := perm.mem_iff.mp this
    simpa using List.mem_filter.mp this
  refine ⟨comps.nonempty, hmem, ?_, hdisj, ?_⟩
  · intro r hrl hrv
    have hrm : r ∈ l.filter (fun r => r.isValid) := List.mem_filter.mpr ⟨hrl, by simp [hrv]⟩
    have hrS : r ∈ (l.filter (fun r => r.isValid)).toFinset := List.mem_toFinset.mpr hrm
    obtain ⟨g, hg, hrg⟩ := comps.cover r hrS
    refine ⟨g, ⟨hg, hrg⟩, ?_⟩
    rintro g' ⟨hg', hrg'⟩
    by_contra hne
    exact hdisj g' hg' g hg hne r hrg' hrg
  · rw [hceq]
    exact List.toFinset_eq_of_perm _ _ perm

/-- Witness for C3: the partition property at a concrete mixed run list. -/
theorem cluster_partitions_validRuns_witness :
    (witnessRuns.filter (fun r => r.isValid)).Nodup ∧
    (cluster witnessRuns).flatten.toFinset =
      (witnessRuns.filter (fun r => r.isValid)).toFinset :=
  ⟨by decide, (cluster_partitions_validRuns witnessRuns (by decide)).2.2.2.2⟩

/-- C4: for fixed thresholds, clustering is deterministic and idempotent and
does not depend on run arrival order — any two arrival orders of the same
runs produce the identical family partition (the same families with the same
members). -/
theorem cluster_perm_invariant (pThr aThr : ℚ) (l₁ l₂ : List Run) (hp : l₁.Perm l₂) :
    partitionFinsets (clusterWith pThr aThr l₁) =
      partitionFinsets (clusterWith pThr aThr l₂) := by
  unfold clusterWith
  exact clusterList_perm_partition (linked_symm pThr aThr) (hp.filter _)

/-- Witness for C4: the same runs in two arrival orders cluster identically. -/
theorem cluster_perm_invariant_witness :
    witnessRuns.Perm witnessRuns.reverse ∧
    partitionFinsets (clusterWith PLAN_SIM_THRESHOLD ASSUMPTION_SIM_THRESHOLD witnessRuns) =
      partitionFinsets
        (clusterWith PLAN_SIM_THRESHOLD ASSUMPTION_SIM_THRESHOLD witnessRuns.reverse) :=
  ⟨(List.reverse_perm witnessRuns).symm,
   cluster_perm_invariant PLAN_SIM_THRESHOLD ASSUMPTION_SIM_THRESHOLD witnessRuns
     witnessRuns.reverse ((List.reverse_perm witnessRuns).symm)⟩

/-- Evaluation of the front-end trust computation on the fragile demo
scenario: the shared-step fraction is 18/18 = 1, but the Agent Gamma answer
differs textually from the other two answers, so neither the Fragile
nor the Robust branch is taken. -/
theorem fragile_demo_trust_eval :
    (calculateTrustFromAgents FRAGILE_SCENARIO_agents).1 = TrustLevel.Uncertain := by
  simp only [calculateTrustFromAgents, FRAGILE_SCENARIO_agents, FRAGILE_REASONING]
  norm_num
  rw [if_neg (by decide)]

/-- C5 counterexample: the front-end trust computation applied to the
built-in fragile demo scenario does not classify it as Fragile — Agent
Gamma answers About 135 Tuners while the others answer Approx. 135
Tuners, so `sameAnswers` is false and the computation yields Uncertain (the
Fragile label of the demo is a static field of the scenario data, not the output
of this computation). -/
theorem fragile_demo_trust_cex :
    (calculateTrustFromAgents FRAGILE_SCENARIO_agents).1 ≠ TrustLevel.Fragile := by
  rw [fragile_demo_trust_eval]
  decide

/-- C5 (amended): any nonempty group of valid runs with identical plans,
identical assumptions, and the same nonzero plan embedding (pairwise plan
similarity 1.0) clusters into exactly one family with verdict FRAGILE; the
front-end trust computation applied to the built-in fragile demo scenario,
however, yields Uncertain rather than Fragile, because the final answer of
one agent differs textually from the others. -/
theorem identical_runs_one_family (l : List Run) (p A : List String) (e : List ℚ)
    (hne : l ≠ []) (hvalid : ∀ r ∈ l, r.isValid = true)
    (hsame : ∀ r ∈ l, r.planSteps = p ∧ r.assumptions = A ∧ r.embedding = e)
    (hnz : dotProd e e ≠ 0) :
    ((cluster l).length = 1 ∧ verdictOf (cluster l).length = Verdict.FRAGILE) ∧
    (calculateTrustFromAgents FRAGILE_SCENARIO_agents).1 = TrustLevel.Uncertain := by
  have hfilter : l.filter (fun r => r.isValid) = l :=
    List.filter_eq_self.mpr (fun a ha => by simp [hvalid a ha])
  have hlink : ∀ x ∈ l, ∀ y ∈ l,
      linked PLAN_SIM_THRESHOLD ASSUMPTION_SIM_THRESHOLD x y = true := by
    intro x hx y hy
    simp only [linked, Bool.or_eq_true]
    left
    rw [(hsame x hx).2.2, (hsame y hy).2.2]
    simp only [planSimGe, PLAN_SIM_THRESHOLD]
    rw [if_neg (by simp [hnz])]
    simp only [Bool.and_eq_true, decide_eq_true_eq]
    refine ⟨dotProd_self_nonneg e, ?_⟩
    nlinarith [sq_nonneg (dotProd e e), dotProd_self_nonneg e]
  have h1 : (cluster l).length = 1 := by
    unfold cluster clusterWith
    rw [hfilter]
    exact clusterList_all_linked hne hlink
  exact ⟨⟨h1, by rw [h1]; rfl⟩, fragile_demo_trust_eval⟩

/-- Witness for C5: three identical valid runs cluster into one FRAGILE
family. -/
theorem identical_runs_one_family_witness :
    (identicalRuns ≠ [] ∧ dotProd [2] [2] ≠ 0) ∧
    (((cluster identicalRuns).length = 1 ∧
        verdictOf (cluster identicalRuns).length = Verdict.FRAGILE) ∧
      (calculateTrustFromAgents FRAGILE_SCENARIO_agents).1 = TrustLevel.Uncertain) :=
  ⟨⟨by decide, by norm_num [dotProd]⟩,
   identical_runs_one_family identicalRuns ["same plan"] ["same assumption"] [2]
     (by decide) (by decide) (by decide) (by norm_num [dotProd])⟩

/-- C6: when zero runs are valid the clusterer reports zero families and the
scorer the explicit INSUFFICIENT_DATA verdict (a state distinct from
FRAGILE); the task still reaches the terminal DONE state rather than FAILED,
and the front-end answer-agreement metric degrades to the explicit "N/A"
value — the degenerate case is an outcome, not an exception. -/
theorem zero_valid_runs_insufficient (l : List Run) (trs : List TaskRun)
    (h : l.filter (fun r => r.isValid) = [])
    (h2 : ∀ tr ∈ trs, jsTruthyBool tr.isValid = false) :
    cluster l = [] ∧
    (orchestrate l true).verdict = some Verdict.INSUFFICIENT_DATA ∧
    Verdict.INSUFFICIENT_DATA ≠ Verdict.FRAGILE ∧
    (orchestrate l true).status = TaskStatus.DONE ∧
    (orchestrate l true).status ≠ TaskStatus.FAILED ∧
    computeAnswerAgreement trs = "N/A" := by
  have hc : cluster l = [] := by
    unfold cluster clusterWith
    rw [h]
    rfl
  have hval : validAnswerRuns trs = [] := by
    unfold validAnswerRuns
    rw [List.filter_eq_nil_iff]
    intro tr htr
    simp [h2 tr htr]
  refine ⟨hc, ?_, by decide, ?_, ?_, ?_⟩
  · simp [orchestrate, hc, verdictOf]
  · simp [orchestrate]
  · simp [orchestrate]
  · simp [computeAnswerAgreement, hval]

/-- Witness for C6: a task whose runs are all invalid. -/
theorem zero_valid_runs_insufficient_witness :
    (allInvalidRuns.filter (fun r => r.isValid) = [] ∧
      ∀ tr ∈ allInvalidTaskRuns, jsTruthyBool tr.isValid = false) ∧
    (cluster allInvalidRuns = [] ∧
      (orchestrate allInvalidRuns true).verdict = some Verdict.INSUFFICIENT_DATA ∧
      Verdict.INSUFFICIENT_DATA ≠ Verdict.FRAGILE ∧
      (orchestrate allInvalidRuns true).status = TaskStatus.DONE ∧
      (orchestrate allInvalidRuns true).status ≠ TaskStatus.FAILED ∧
      computeAnswerAgreement allInvalidTaskRuns = "N/A") :=
  ⟨⟨by decide, by decide⟩,
   zero_valid_runs_insufficient allInvalidRuns allInvalidTaskRuns (by decide) (by decide)⟩

/-- C8 counterexample: a task-API failure with an `ok` fallback response can
still reject — when the fallback body is not valid JSON, `response.json()`
rejects after the `ok` check, so "rejects only when the fallback response is
not ok" is false. -/
theorem generateAnalysis_ok_fallback_reject_cex :
    isErrorResult (generateAnalysis cexFetchEnv) = true ∧
      cexFetchEnv.analyzeRes.ok = true :=
  ⟨rfl, rfl⟩

/-- C8 (amended): `generateAnalysis` first attempts the task-based API and
falls back to `POST /analyze` when that path throws; the returned promise
rejects exactly when the task path failed and the fallback response is
either not ok or carries a body that fails to parse as JSON — a task-API
failure with a parsable ok fallback never rejects. -/
theorem generateAnalysis_reject_characterization (env : FetchEnv) :
    isErrorResult (generateAnalysis env) =
      (isErrorResult (generateFromTaskApi env) &&
        (!env.analyzeRes.ok || env.analyzeRes.body.isNone)) := by
  unfold generateAnalysis
  cases h : generateFromTaskApi env with
  | ok r => simp [isErrorResult]
  | error e =>
      simp only [isErrorResult, Bool.true_and]
      by_cases hok : env.analyzeRes.ok = false
      · simp [hok, isErrorResult]
      · have hok' : env.analyzeRes.ok = true := by
          cases hb : env.analyzeRes.ok
          · exact absurd hb hok
          · rfl
        cases hb : env.analyzeRes.body with
        | none => simp [hok', respJson, hb, isErrorResult]
        | some d => simp [hok', respJson, hb, isErrorResult]

/-- C9: `detectSharedReasoning` leaves fewer than two agents unmodified;
otherwise it preserves the fields of every agent and flags exactly those steps as
shared whose normalised text occurs more than once across all steps of all
agents (repeats within one agent count too), never resetting an
already-true flag: the final flag is true iff the old flag was true or the
occurrence count exceeds one. -/
theorem detectSharedReasoning_spec :
    detectSharedReasoning [] = [] ∧
    (∀ a : AgentData, detectSharedReasoning [a] = [a]) ∧
    ∀ (x y : AgentData) (rest : List AgentData),
      List.Forall₂ (fun ag ag2 =>
          ag2.id = ag.id ∧ ag2.name = ag.name ∧ ag2.finalAnswer = ag.finalAnswer ∧
          ag2.assumptions = ag.assumptions ∧
          List.Forall₂ (fun st st2 =>
              st2.id = st.id ∧ st2.text = st.text ∧
              (st2.isShared = true ↔
                (st.isShared = true ∨ stepTextCount (x :: y :: rest) st.text > 1)))
            ag.reasoning ag2.reasoning)
        (x :: y :: rest) (detectSharedReasoning (x :: y :: rest)) := by
  refine ⟨rfl, fun a => rfl, ?_⟩
  intro x y rest
  have hlen : ¬ (x :: y :: rest).length < 2 := by
    simp [List.length_cons]
  simp only [detectSharedReasoning, if_neg hlen]
  rw [List.forall₂_map_right_iff, List.forall₂_same]
  intro ag _
  refine ⟨rfl, rfl, rfl, rfl, ?_⟩
  rw [List.forall₂_map_right_iff, List.forall₂_same]
  intro st _
  by_cases hc : stepTextCount (x :: y :: rest) st.text > 1
  · simp [hc]
  · simp [hc]

/-- C10: `parsePlan` returns the empty list for a missing or empty plan, and
otherwise at most 10 strings, each nonempty and trimmed (splitting on
newlines, stripping leading numbering or bullet markers and surrounding
whitespace, dropping empty lines, and keeping the first 10). -/
theorem parsePlan_spec :
    parsePlan none = [] ∧ parsePlan (some "") = [] ∧
    ∀ plan : Option String, (parsePlan plan).length ≤ 10 ∧
      ∀ s ∈ parsePlan plan, s ≠ "" ∧ jsTrim s = s := by
  refine ⟨rfl, rfl, ?_⟩
  intro plan
  constructor
  · cases plan with
    | none => simp [parsePlan]
    | some p =>
        by_cases hp : p = ""
        · simp [parsePlan, hp]
        · simp only [parsePlan, if_neg hp]
          exact List.length_take_le 10 _
  · intro s hs
    cases plan with
    | none => simp [parsePlan] at hs
    | some p =>
        by_cases hp : p = ""
        · simp [parsePlan, hp] at hs
        · simp only [parsePlan, if_neg hp] at hs
          have hs' := List.mem_of_mem_take hs
          rw [List.mem_filter] at hs'
          obtain ⟨hmem, hne⟩ := hs'
          rw [List.mem_map] at hmem
          obtain ⟨t, _, rfl⟩ := hmem
          exact ⟨by simpa using hne, jsTrim_idem _⟩

/-- Witness for C10: a concrete plan with numbering and bullets. -/
theorem parsePlan_spec_witness :
    (parsePlan (some "1. first step\n- second step\n\n3) third")).length ≤ 10 ∧
    ("first step" ∈ parsePlan (some "1. first step\n- second step\n\n3) third") ∧
      ("first step" ≠ "" ∧ jsTrim "first step" = "first step")) :=
  ⟨(parsePlan_spec.2.2 (some "1. first step\n- second step\n\n3) third")).1,
   by decide,
   (parsePlan_spec.2.2 (some "1. first step\n- second step\n\n3) third")).2
     "first step" (by decide)⟩

